import Mathlib

/-!
Shallow embedding of the notebook output extractor, the chart capturer and
the spatial-metadata merge implemented (in near-identical copies) by
`src/server/complete_backend_flask_server.py`, `src/Pulto/Backend/backend.py`
and `src/Backend/backend.py`.  File I/O, HTTP plumbing and the external
libraries (`exec`, matplotlib, base64) are outside the embedded component;
cell evaluation and figure rendering are abstracted as oracle parameters,
while the matplotlib global figure registry is threaded explicitly as state.
-/

namespace Pulto

/-- Python's substring test `needle in haystack`, on explicit character lists. -/
def containsSub (needle : List Char) : List Char → Bool
  | [] => needle.isPrefixOf ([] : List Char)
  | c :: t => needle.isPrefixOf (c :: t) || containsSub needle t

/-- Python `needle in haystack` for strings. -/
def strIn (needle haystack : String) : Bool :=
  containsSub needle.data haystack.data

/-- Python `s.lower()`, characterwise over the string's characters. -/
def strLower (s : String) : String :=
  ⟨s.data.map Char.toLower⟩

/-- The MIME bundle of a `display_data` / `execute_result` output (`output.data`
in the source): the five MIME keys the extractor inspects, each optional. -/
structure RichData where
  textPlain : Option String
  imagePng : Option String
  imageJpeg : Option String
  appJson : Option String
  textHtml : Option String
deriving Repr, DecidableEq

/-- One entry of a code cell's `outputs` list, as read by the extractor. -/
inductive Output where
  | stream (name text : String)
  | displayData (data : RichData)
  | executeResult (data : RichData)
  | error (ename evalue : String) (traceback : List String)
deriving Repr, DecidableEq

/-- The `output_type` field of an output. -/
def Output.outputType : Output → String
  | .stream _ _ => "stream"
  | .displayData _ => "display_data"
  | .executeResult _ => "execute_result"
  | .error _ _ _ => "error"

/-- A cell's `source`, which the notebook format allows to be a plain string
or a list of lines (joined with `''.join` before use by the chart capturer). -/
inductive Src where
  | str (s : String)
  | lines (l : List String)
deriving Repr, DecidableEq

/-- The join performed by `''.join(cell.source) if isinstance(cell.source, list)
else cell.source`. -/
def Src.joined : Src → String
  | .str s => s
  | .lines l => String.join l

/-- Python truthiness of `cell.source` (nonempty string / nonempty list). -/
def Src.truthy : Src → Bool
  | .str s => !s.isEmpty
  | .lines l => !l.isEmpty

/-- A notebook cell as the component reads it: its `cell_type`, its `source`,
its `outputs` list (absent on non-code cells: `hasattr(cell, 'outputs')`) and
its `metadata` dict, here an association list whose values have the opaque
payload type `α` (the component never inspects payloads). -/
structure Cell (α : Type) where
  cell_type : String
  source : Src
  outputs : Option (List Output)
  metadata : Option (List (String × α))
deriving Repr, DecidableEq

/-- The `output_data` dict built by `extract_outputs_from_notebook` for one
output: keys that the code may or may not set are `Option`-valued (absent =
`none`), `is_dataframe` is only ever set to `True` so it is a `Bool` that
defaults to `false`. -/
structure OutputData where
  cell_index : Nat
  output_index : Nat
  type : String
  text : Option String := none
  stream : Option String := none
  image_png : Option String := none
  image_jpeg : Option String := none
  image_type : Option String := none
  json_data : Option String := none
  html : Option String := none
  is_dataframe : Bool := false
  error : Option (String × String × List String) := none
deriving Repr, DecidableEq

/-- The sequence of independent `if 'mime' in data:` statements of
`extract_outputs_from_notebook` for a `display_data` / `execute_result`
output, in source order: text/plain, image/png, image/jpeg,
application/json, text/html (with the `'dataframe' in html.lower()` tag). -/
def processRich (base : OutputData) (d : RichData) : OutputData :=
  let r := base
  let r := match d.textPlain with
    | some t => { r with text := some t }
    | none => r
  let r := match d.imagePng with
    | some p => { r with image_png := some p, image_type := some "png" }
    | none => r
  let r := match d.imageJpeg with
    | some p => { r with image_jpeg := some p, image_type := some "jpeg" }
    | none => r
  let r := match d.appJson with
    | some j => { r with json_data := some j }
    | none => r
  match d.textHtml with
  | some h =>
      let r := { r with html := some h }
      if strIn "dataframe" (strLower h) then { r with is_dataframe := true } else r
  | none => r

/-- The body of the inner loop of `extract_outputs_from_notebook`: the record
built for output number `outputIdx` of cell number `cellIdx`. -/
def processOutput (cellIdx outputIdx : Nat) (o : Output) : OutputData :=
  let base : OutputData :=
    { cell_index := cellIdx, output_index := outputIdx, type := o.outputType }
  match o with
  | .stream name text => { base with text := some text, stream := some name }
  | .displayData d => processRich base d
  | .executeResult d => processRich base d
  | .error en ev tb => { base with error := some (en, ev, tb) }

/-- The inner `for output_idx, output in enumerate(cell.outputs)` loop,
started at output index `j`. -/
def outputRecords (cellIdx : Nat) : Nat → List Output → List OutputData
  | _, [] => []
  | j, o :: rest => processOutput cellIdx j o :: outputRecords cellIdx (j + 1) rest

/-- The records one cell contributes: guarded by
`cell.cell_type == 'code' and hasattr(cell, 'outputs')`. -/
def cellRecords {α : Type} (cellIdx : Nat) (c : Cell α) : List OutputData :=
  if c.cell_type = "code" then
    match c.outputs with
    | some outs => outputRecords cellIdx 0 outs
    | none => []
  else []

/-- The outer `for cell_idx, cell in enumerate(nb.cells)` loop, started at
cell index `idx`. -/
def extractFrom {α : Type} (idx : Nat) : List (Cell α) → List OutputData
  | [] => []
  | c :: rest => cellRecords idx c ++ extractFrom (idx + 1) rest

/-- `extract_outputs_from_notebook` of
`src/server/complete_backend_flask_server.py` (lines 38-91) and, verbatim the
same body, of `src/Pulto/Backend/backend.py` (lines 16-69), applied to the
parsed cell list. -/
def extract_outputs_from_notebook {α : Type} (cells : List (Cell α)) : List OutputData :=
  extractFrom 0 cells

/-- State-threaded rendering of the same extraction loop: the document is
passed along exactly as the interpreter holds it; the source contains no
assignment into `nb`, so each step hands the cells on unchanged. -/
def extractFromSt {α : Type} (idx : Nat) : List (Cell α) → List OutputData × List (Cell α)
  | [] => ([], [])
  | c :: rest =>
      let here := cellRecords idx c
      let r := extractFromSt (idx + 1) rest
      (here ++ r.1, c :: r.2)

/-- Extraction together with the document as left behind afterwards. -/
def extract_outputs_st {α : Type} (cells : List (Cell α)) :
    List OutputData × List (Cell α) :=
  extractFromSt 0 cells

/-! ### Chart capture

The matplotlib global figure registry is modelled as the list of currently
open figure numbers; `exec` of arbitrary user source and the PNG rendering of
figures cannot be embedded, so they are oracle parameters.  An `Except`
result of the evaluation oracle carries the registry state at the point the
exception was raised (`.error`) or after normal completion (`.ok`). -/

/-- The matplotlib process-global state: the open figure numbers
(`plt.get_fignums()` returns them in ascending order). -/
structure MplState where
  figs : List Nat
deriving Repr, DecidableEq

/-- Evaluation oracle for `exec(source, namespace)`: from the source text and
the figure registry before the call to either the registry after normal
completion or (`.error`) the registry at the point an exception was raised. -/
def ExecFn : Type := String → MplState → Except MplState MplState

/-- Insertion of a number into an ascending list. -/
def insortNat (n : Nat) : List Nat → List Nat
  | [] => [n]
  | m :: t => if n ≤ m then n :: m :: t else m :: insortNat n t

/-- Ascending sort, modelling the order in which `plt.get_fignums()` lists
the open figures. -/
def sortNats : List Nat → List Nat
  | [] => []
  | n :: t => insortNat n (sortNats t)

/-- Zero-padded decimal as produced by the format spec `{cell_idx:03d}`. -/
def pad3 (n : Nat) : String :=
  let s := toString n
  if s.length ≥ 3 then s
  else String.mk (List.replicate (3 - s.length) '0') ++ s

/-- The keyword list of `generate_chart_images_from_notebook`; the match is
case-insensitive because the source text is lowercased first. -/
def plotKeywords : List String := ["plt.", "matplotlib", "plot(", "scatter(", "bar("]

/-- The guard `any(keyword in source_code.lower() for keyword in [...])`. -/
def isPlotLike (source : String) : Bool :=
  plotKeywords.any (fun k => strIn k (strLower source))

/-- Result of a chart-capture run over a cell list: the chart dict (keyed here
by the raw cell index; the string key formatting is applied by the wrapper
functions below), the final figure-registry state, and — as instrumentation
for stating which cells were ever passed to `exec` — the list of evaluated
cell indices. -/
structure ChartRun where
  charts : List (Nat × List String)
  state : MplState
  evaluated : List Nat
deriving Repr, DecidableEq

/-- The cell loop of `generate_chart_images_from_notebook`
(`src/server/complete_backend_flask_server.py`, lines 127-161): for a truthy
code cell whose joined source matches a plotting keyword, `exec` the source;
on success save the current figure once (`plt.savefig` on the implicit current
figure, abstracted as `render` of the post-evaluation registry), store a
one-element image list under the cell's key, then `plt.clf(); plt.close('all')`
(registry cleared for the next cell); on exception print and `continue`,
leaving the registry as the failed `exec` left it. -/
def generate_chart_images_loop {α : Type} (execFn : ExecFn) (render : MplState → String) :
    Nat → MplState → List (Cell α) → ChartRun
  | _, s, [] => ⟨[], s, []⟩
  | idx, s, c :: rest =>
      if c.cell_type = "code" ∧ c.source.truthy then
        if isPlotLike c.source.joined then
          match execFn c.source.joined s with
          | .ok s1 =>
              let img := render s1
              let r := generate_chart_images_loop execFn render (idx + 1) ⟨[]⟩ rest
              ⟨(idx, [img]) :: r.charts, r.state, idx :: r.evaluated⟩
          | .error s1 =>
              let r := generate_chart_images_loop execFn render (idx + 1) s1 rest
              ⟨r.charts, r.state, idx :: r.evaluated⟩
        else
          generate_chart_images_loop execFn render (idx + 1) s rest
      else
        generate_chart_images_loop execFn render (idx + 1) s rest

/-- `generate_chart_images_from_notebook` applied to the parsed cell list,
with the Flask variant's dict keys `f"chartKey_{cell_idx:03d}"`. -/
def generate_chart_images_from_notebook {α : Type} (execFn : ExecFn)
    (render : MplState → String) (s0 : MplState) (cells : List (Cell α)) :
    List (String × List String) × MplState :=
  let r := generate_chart_images_loop execFn render 0 s0 cells
  (r.charts.map (fun kv => ("chartKey_" ++ pad3 kv.1, kv.2)), r.state)

/-- `execute_cell_and_capture_plots` of `src/Backend/backend.py`
(lines 121-165): `plt.close('all')`, then `exec` the code; on success capture
every figure of `plt.get_fignums()` in ascending order (each rendered to a
base64 PNG, abstracted as `renderFig`), closing each, so the registry ends
empty; on exception print and return the (empty) plots captured so far,
leaving the registry as the failed `exec` left it. -/
def execute_cell_and_capture_plots (execFn : ExecFn) (renderFig : Nat → String)
    (code : String) (_s : MplState) : List String × MplState :=
  match execFn code ⟨[]⟩ with
  | .ok s1 => ((sortNats s1.figs).map renderFig, ⟨[]⟩)
  | .error s1 => ([], s1)

/-- The cell loop of `extract_charts_from_notebook` of `src/Backend/backend.py`
(lines 83-115): every code cell is handed to `execute_cell_and_capture_plots`
(no keyword guard), and a dict entry is stored only when the returned image
list is nonempty (`if chart_images:`). -/
def extract_charts_loop {α : Type} (execFn : ExecFn) (renderFig : Nat → String) :
    Nat → MplState → List (Cell α) → ChartRun
  | _, s, [] => ⟨[], s, []⟩
  | i, s, c :: rest =>
      if c.cell_type = "code" then
        let p := execute_cell_and_capture_plots execFn renderFig c.source.joined s
        let r := extract_charts_loop execFn renderFig (i + 1) p.2 rest
        if p.1.isEmpty then ⟨r.charts, r.state, i :: r.evaluated⟩
        else ⟨(i, p.1) :: r.charts, r.state, i :: r.evaluated⟩
      else
        extract_charts_loop execFn renderFig (i + 1) s rest

/-- `extract_charts_from_notebook` applied to the parsed cell list, with the
FastAPI variant's unpadded dict keys `f"chartKey_{i}"` (the pass-through of a
document-level `metadata.chartPositions` entry sits outside the cell loop and
is not part of the per-cell capture modelled here). -/
def extract_charts_from_notebook {α : Type} (execFn : ExecFn)
    (renderFig : Nat → String) (s0 : MplState) (cells : List (Cell α)) :
    List (String × List String) × MplState :=
  let r := extract_charts_loop execFn renderFig 0 s0 cells
  (r.charts.map (fun kv => ("chartKey_" ++ toString kv.1, kv.2)), r.state)

/-! ### Spatial metadata merge -/

/-- Python dict key assignment `m[k] = v` on an association list. -/
def setKey {α : Type} (m : List (String × α)) (k : String) (v : α) :
    List (String × α) :=
  match m with
  | [] => [(k, v)]
  | (k', v') :: t => if k' = k then (k, v) :: t else (k', v') :: setKey t k v

/-- Python dict lookup `m.get(k)` on an association list. -/
def getKey {α : Type} (m : List (String × α)) (k : String) : Option α :=
  match m with
  | [] => none
  | (k', v) :: t => if k' = k then some v else getKey t k

/-- Per-cell body of `update_notebook_spatial_metadata`: create the metadata
dict if absent, then assign the payload under the `'spatial'` key. -/
def updateCellSpatial {α : Type} (payload : α) (c : Cell α) : Cell α :=
  let m := c.metadata.getD []
  { c with metadata := some (setKey m "spatial" payload) }

/-- In-place update of list element `n` (`nb.cells[n]` mutation). -/
def modifyAt {β : Type} (f : β → β) : Nat → List β → List β
  | _, [] => []
  | 0, c :: t => f c :: t
  | n + 1, c :: t => c :: modifyAt f n t

/-- `update_notebook_spatial_metadata` of
`src/server/complete_backend_flask_server.py` (lines 165-187), on the parsed
cell list.  A given `cell_index` is admitted by the guard
`cell_index < len(nb.cells)`; Python list indexing then resolves a negative
index against the end of the list and raises `IndexError` when it falls
before the start.  With `cell_index=None` every cell is updated. -/
def update_notebook_spatial_metadata {α : Type} (cells : List (Cell α))
    (payload : α) (cell_index : Option Int) : Except String (List (Cell α)) :=
  match cell_index with
  | some i =>
      if i < (cells.length : Int) then
        let eff : Int := if 0 ≤ i then i else (cells.length : Int) + i
        if 0 ≤ eff then
          .ok (modifyAt (updateCellSpatial payload) eff.toNat cells)
        else
          .error "IndexError: list index out of range"
      else
        .ok cells
  | none => .ok (cells.map (updateCellSpatial payload))

/-! ### Derived notions and concrete fixtures -/

/-- Document order on extracted records: earlier cell, or same cell and
earlier output. -/
def recLex (p q : OutputData) : Prop :=
  p.cell_index < q.cell_index ∨
    (p.cell_index = q.cell_index ∧ p.output_index < q.output_index)

/-- Positions of the code cells, counted from `idx`. -/
def codeIndices {α : Type} (idx : Nat) : List (Cell α) → List Nat
  | [] => []
  | c :: rest =>
      if c.cell_type = "code" then idx :: codeIndices (idx + 1) rest
      else codeIndices (idx + 1) rest

/-- Index `n` (counted from the loop start `idx`) points at a truthy,
plot-like code cell of `cells`. -/
def plotCellAt {α : Type} (cells : List (Cell α)) (idx n : Nat) : Prop :=
  idx ≤ n ∧ ∃ c, cells[n - idx]? = some c ∧ c.cell_type = "code" ∧
    c.source.truthy = true ∧ isPlotLike c.source.joined = true

/-- Evaluation oracle that touches no figures and raises nothing, the
behaviour of running `x = 1`. -/
def idExec : ExecFn := fun _ s => .ok s

/-- Evaluation oracle that leaves figures 1 and 2 open, the behaviour of a
cell calling `plt.figure()` twice and plotting on both. -/
def twoFigExec : ExecFn := fun _ _ => .ok ⟨[1, 2]⟩

/-- Evaluation oracle that always raises, leaving the registry unchanged. -/
def failExec : ExecFn := fun _ s => .error s

/-- Rendering oracle for `plt.savefig` on the current figure. -/
def curRender : MplState → String := fun s => "cur_" ++ toString s.figs.length

/-- Rendering oracle for `fig.savefig` on one numbered figure. -/
def figRender : Nat → String := fun n => "png_" ++ toString n

/-- A code cell with no plotting keyword in its source. -/
def plainCell : Cell Unit := ⟨"code", .str "x = 1", some [], none⟩

/-- A code cell whose source matches the `plt.` keyword. -/
def plotCell : Cell Unit := ⟨"code", .str "plt.plot(xs)", some [], none⟩

/-- A rich MIME bundle carrying all five representations at once. -/
def c1Rich : RichData :=
  ⟨some "frame text", some "PNGDATA", some "JPEGDATA", some "json payload",
    some "<div>x</div>"⟩

/-- A small concrete notebook: markdown, a stream cell, a cell with an
execute_result and an error, and a code cell with no outputs. -/
def sampleCells : List (Cell Nat) :=
  [⟨"markdown", .str "# title", none, none⟩,
   ⟨"code", .str "print(1)", some [.stream "stdout" "one"], none⟩,
   ⟨"code", .str "df",
     some [.executeResult ⟨some "df", none, none, none,
             some "<div class=dataframe></div>"⟩,
           .error "ValueError" "bad" ["l1", "l2"]],
     some [("tags", 0)]⟩,
   ⟨"code", .str "x = 1", some [], none⟩]

/-! ### Lemmas on the output extractor -/

/-- Full characterization of the sequential `if 'mime' in data:` chain: every
representation present is recorded independently, and `image_type`, written by
the PNG branch and then by the JPEG branch, ends as `"jpeg"` whenever a JPEG
is present, else `"png"` whenever a PNG is present. -/
theorem processRich_eq (b : OutputData) (d : RichData) :
    processRich b d =
      { b with
        text := match d.textPlain with | some t => some t | none => b.text
        image_png := match d.imagePng with | some p => some p | none => b.image_png
        image_jpeg := match d.imageJpeg with | some p => some p | none => b.image_jpeg
        image_type :=
          match d.imageJpeg with
          | some _ => some "jpeg"
          | none =>
            match d.imagePng with
            | some _ => some "png"
            | none => b.image_type
        json_data := match d.appJson with | some j => some j | none => b.json_data
        html := match d.textHtml with | some h => some h | none => b.html
        is_dataframe :=
          match d.textHtml with
          | some h => if strIn "dataframe" (strLower h) then true else b.is_dataframe
          | none => b.is_dataframe } := by
  rcases d with ⟨tp, ip, ij, aj, th⟩
  cases tp <;> cases ip <;> cases ij <;> cases aj <;> cases th <;>
    simp only [processRich] <;>
    first
      | rfl
      | (rename_i h; by_cases hdf : strIn "dataframe" (strLower h) = true <;> simp [hdf])

theorem processOutput_cell_index (i j : Nat) (o : Output) :
    (processOutput i j o).cell_index = i := by
  cases o <;> simp [processOutput, processRich_eq]

theorem processOutput_output_index (i j : Nat) (o : Output) :
    (processOutput i j o).output_index = j := by
  cases o <;> simp [processOutput, processRich_eq]

theorem processOutput_type (i j : Nat) (o : Output) :
    (processOutput i j o).type = o.outputType := by
  cases o <;> simp [processOutput, processRich_eq]

theorem mem_outputRecords {i : Nat} {outs : List Output} {r : OutputData} :
    ∀ {j : Nat}, r ∈ outputRecords i j outs ↔
      ∃ k o, outs[k]? = some o ∧ r = processOutput i (j + k) o := by
  induction outs with
  | nil => intro j; simp [outputRecords]
  | cons o t ih =>
      intro j
      simp only [outputRecords, List.mem_cons, ih]
      constructor
      · rintro (rfl | ⟨k, o', hk, rfl⟩)
        · exact ⟨0, o, by simp, by simp⟩
        · refine ⟨k + 1, o', by simpa using hk, ?_⟩
          have : j + 1 + k = j + (k + 1) := by omega
          rw [this]
      · rintro ⟨k, o', hk, rfl⟩
        cases k with
        | zero =>
            left
            simp only [List.getElem?_cons_zero, Option.some.injEq] at hk
            subst hk; simp
        | succ m =>
            right
            refine ⟨m, o', by simpa using hk, ?_⟩
            have : j + (m + 1) = j + 1 + m := by omega
            rw [this]

theorem mem_cellRecords {α : Type} {idx : Nat} {c : Cell α} {r : OutputData} :
    r ∈ cellRecords idx c ↔
      c.cell_type = "code" ∧ ∃ outs k o, c.outputs = some outs ∧
        outs[k]? = some o ∧ r = processOutput idx k o := by
  by_cases h : c.cell_type = "code"
  · cases houts : c.outputs with
    | none => simp [cellRecords, h, houts]
    | some outs => simp [cellRecords, h, houts, mem_outputRecords]
  · simp [cellRecords, h]

theorem mem_extractFrom {α : Type} {cells : List (Cell α)} {r : OutputData} :
    ∀ {idx : Nat}, r ∈ extractFrom idx cells ↔
      ∃ n c outs k o, cells[n]? = some c ∧ c.cell_type = "code" ∧
        c.outputs = some outs ∧ outs[k]? = some o ∧
        r = processOutput (idx + n) k o := by
  induction cells with
  | nil => intro idx; simp [extractFrom]
  | cons c t ih =>
      intro idx
      simp only [extractFrom, List.mem_append, mem_cellRecords, ih]
      constructor
      · rintro (⟨hcode, outs, k, o, houts, hk, rfl⟩ | ⟨n, c', outs, k, o, hn, hcode, houts, hk, rfl⟩)
        · exact ⟨0, c, outs, k, o, by simp, hcode, houts, hk, by simp⟩
        · refine ⟨n + 1, c', outs, k, o, by simpa using hn, hcode, houts, hk, ?_⟩
          have : idx + 1 + n = idx + (n + 1) := by omega
          rw [this]
      · rintro ⟨n, c', outs, k, o, hn, hcode, houts, hk, rfl⟩
        cases n with
        | zero =>
            left
            simp only [List.getElem?_cons_zero, Option.some.injEq] at hn
            subst hn
            exact ⟨hcode, outs, k, o, houts, hk, by simp⟩
        | succ m =>
            right
            refine ⟨m, c', outs, k, o, by simpa using hn, hcode, houts, hk, ?_⟩
            have : idx + (m + 1) = idx + 1 + m := by omega
            rw [this]

theorem pairwise_outputRecords {i : Nat} {outs : List Output} :
    ∀ {j : Nat}, (outputRecords i j outs).Pairwise recLex := by
  induction outs with
  | nil => intro j; simp [outputRecords]
  | cons o t ih =>
      intro j
      simp only [outputRecords, List.pairwise_cons]
      refine ⟨?_, ih⟩
      intro r hr
      rcases mem_outputRecords.mp hr with ⟨k, o', _, rfl⟩
      right
      constructor
      · rw [processOutput_cell_index, processOutput_cell_index]
      · rw [processOutput_output_index, processOutput_output_index]
        omega

theorem pairwise_extractFrom {α : Type} {cells : List (Cell α)} :
    ∀ {idx : Nat}, (extractFrom idx cells).Pairwise recLex := by
  induction cells with
  | nil => intro idx; simp [extractFrom]
  | cons c t ih =>
      intro idx
      simp only [extractFrom]
      rw [List.pairwise_append]
      refine ⟨?_, ih, ?_⟩
      · unfold cellRecords
        by_cases h : c.cell_type = "code"
        · cases houts : c.outputs with
          | none => simp [h, houts]
          | some outs => simp only [if_pos h, houts]; exact pairwise_outputRecords
        · simp [h]
      · intro a ha b hb
        rcases mem_cellRecords.mp ha with ⟨_, outs, k, o, _, _, rfl⟩
        rcases mem_extractFrom.mp hb with ⟨n, c', outs', k', o', _, _, _, _, rfl⟩
        left
        rw [processOutput_cell_index, processOutput_cell_index]
        omega

theorem codeIndices_lower {α : Type} {cells : List (Cell α)} :
    ∀ {idx m : Nat}, m ∈ codeIndices idx cells → idx ≤ m := by
  induction cells with
  | nil => intro idx m h; simp [codeIndices] at h
  | cons c t ih =>
      intro idx m h
      by_cases hc : c.cell_type = "code"
      · simp only [codeIndices, if_pos hc, List.mem_cons] at h
        rcases h with rfl | h
        · exact Nat.le_refl _
        · exact Nat.le_of_succ_le (ih h)
      · simp only [codeIndices, if_neg hc] at h
        exact Nat.le_of_succ_le (ih h)

theorem codeIndices_nodup {α : Type} {cells : List (Cell α)} :
    ∀ {idx : Nat}, (codeIndices idx cells).Nodup := by
  induction cells with
  | nil => intro idx; simp [codeIndices]
  | cons c t ih =>
      intro idx
      by_cases hc : c.cell_type = "code"
      · simp only [codeIndices, if_pos hc, List.nodup_cons]
        exact ⟨fun h => by have := codeIndices_lower h; omega, ih⟩
      · simp only [codeIndices, if_neg hc]
        exact ih

theorem codeIndices_length {α : Type} {cells : List (Cell α)} :
    ∀ {idx : Nat}, (codeIndices idx cells).length
      = cells.countP (fun c => c.cell_type == "code") := by
  induction cells with
  | nil => intro idx; simp [codeIndices]
  | cons c t ih =>
      intro idx
      by_cases hc : c.cell_type = "code"
      · simp [codeIndices, hc, List.countP_cons, ih]
      · simp [codeIndices, hc, List.countP_cons, ih]

theorem mem_codeIndices_of_getElem {α : Type} {cells : List (Cell α)} :
    ∀ {idx n : Nat} {c : Cell α}, cells[n]? = some c → c.cell_type = "code" →
      idx + n ∈ codeIndices idx cells := by
  induction cells with
  | nil => intro idx n c h _; simp at h
  | cons c0 t ih =>
      intro idx n c h hcode
      cases n with
      | zero =>
          simp only [List.getElem?_cons_zero, Option.some.injEq] at h
          subst h
          simp [codeIndices, hcode]
      | succ m =>
          simp only [List.getElem?_cons_succ] at h
          have hmem : idx + 1 + m ∈ codeIndices (idx + 1) t := ih h hcode
          have harith : idx + (m + 1) = idx + 1 + m := by omega
          rw [harith]
          by_cases hc0 : c0.cell_type = "code"
          · simp only [codeIndices, if_pos hc0, List.mem_cons]
            exact Or.inr hmem
          · simp only [codeIndices, if_neg hc0]
            exact hmem

/-- In a list pairwise-ordered by `recLex`, the (cell, output) index pair is a
key: filtering on the key of a member returns exactly that member. -/
theorem filter_key_of_pairwise {l : List OutputData} {x : OutputData}
    (hp : l.Pairwise recLex) (hx : x ∈ l) :
    l.filter (fun r => r.cell_index == x.cell_index
        && r.output_index == x.output_index) = [x] := by
  induction l with
  | nil => simp at hx
  | cons a t ih =>
      rw [List.pairwise_cons] at hp
      rcases List.mem_cons.mp hx with rfl | hxt
      · have htail : t.filter (fun r => r.cell_index == x.cell_index
            && r.output_index == x.output_index) = [] := by
          rw [List.filter_eq_nil_iff]
          intro b hb
          rcases hp.1 b hb with h1 | ⟨h1, h2⟩ <;>
            · simp only [Bool.and_eq_true, beq_iff_eq, not_and]
              intro h3 h4
              omega
        simp [List.filter_cons, htail]
      · have hne : (a.cell_index == x.cell_index
            && a.output_index == x.output_index) = false := by
          rcases hp.1 x hxt with h1 | ⟨h1, h2⟩ <;>
            · rw [Bool.and_eq_false_iff]
              simp only [beq_eq_false_iff_ne, ne_eq]
              omega
        simp only [List.filter_cons, hne, Bool.false_eq_true, if_false]
        exact ih hp.2 hxt

/-! ### Lemmas on chart capture -/

theorem insortNat_perm (n : Nat) (l : List Nat) :
    List.Perm (insortNat n l) (n :: l) := by
  induction l with
  | nil => simp [insortNat]
  | cons m t ih =>
      unfold insortNat
      by_cases h : n ≤ m
      · simp [h]
      · rw [if_neg h]
        exact (ih.cons m).trans (List.Perm.swap n m t)

theorem sortNats_perm (l : List Nat) : List.Perm (sortNats l) l := by
  induction l with
  | nil => simp [sortNats]
  | cons n t ih =>
      unfold sortNats
      exact (insortNat_perm n (sortNats t)).trans (ih.cons n)

theorem sortNats_length (l : List Nat) : (sortNats l).length = l.length :=
  (sortNats_perm l).length_eq

theorem insortNat_sorted {n : Nat} {l : List Nat}
    (h : l.Pairwise (· ≤ ·)) : (insortNat n l).Pairwise (· ≤ ·) := by
  induction l with
  | nil => simp [insortNat]
  | cons m t ih =>
      rw [List.pairwise_cons] at h
      unfold insortNat
      by_cases hnm : n ≤ m
      · rw [if_pos hnm, List.pairwise_cons]
        refine ⟨?_, List.pairwise_cons.mpr h⟩
        intro b hb
        rcases List.mem_cons.mp hb with rfl | hbt
        · exact hnm
        · exact Nat.le_trans hnm (h.1 b hbt)
      · rw [if_neg hnm, List.pairwise_cons]
        refine ⟨?_, ih h.2⟩
        intro b hb
        rcases List.mem_cons.mp ((insortNat_perm n t).mem_iff.mp hb) with rfl | hbt
        · omega
        · exact h.1 b hbt

theorem sortNats_sorted (l : List Nat) : (sortNats l).Pairwise (· ≤ ·) := by
  induction l with
  | nil => simp [sortNats]
  | cons n t ih => exact insortNat_sorted ih

theorem plotCellAt_shift {α : Type} {cells : List (Cell α)} {c : Cell α}
    {idx n : Nat} (h : plotCellAt cells (idx + 1) n) :
    plotCellAt (c :: cells) idx n := by
  obtain ⟨h1, c', hc', hrest⟩ := h
  refine ⟨by omega, c', ?_, hrest⟩
  have harith : n - idx = (n - (idx + 1)) + 1 := by omega
  rw [harith, List.getElem?_cons_succ]
  exact hc'

/-- Every chart-dict entry and every evaluated index produced by the Flask
loop belongs to a truthy, plot-like code cell at that position. -/
theorem generate_loop_spec {α : Type} (execFn : ExecFn)
    (render : MplState → String) :
    ∀ (cells : List (Cell α)) (idx : Nat) (s : MplState),
      (∀ p ∈ (generate_chart_images_loop execFn render idx s cells).charts,
        plotCellAt cells idx p.1) ∧
      (∀ m ∈ (generate_chart_images_loop execFn render idx s cells).evaluated,
        plotCellAt cells idx m) := by
  intro cells
  induction cells with
  | nil =>
      intro idx s
      constructor <;> (intro x hx; simp [generate_chart_images_loop] at hx)
  | cons c rest ih =>
      intro idx s
      by_cases hcode : c.cell_type = "code" ∧ c.source.truthy = true
      · by_cases hplot : isPlotLike c.source.joined = true
        · cases hex : execFn c.source.joined s with
          | ok s1 =>
              have hred : generate_chart_images_loop execFn render idx s (c :: rest)
                  = ⟨(idx, [render s1]) ::
                        (generate_chart_images_loop execFn render (idx + 1) ⟨[]⟩ rest).charts,
                      (generate_chart_images_loop execFn render (idx + 1) ⟨[]⟩ rest).state,
                      idx :: (generate_chart_images_loop execFn render
                        (idx + 1) ⟨[]⟩ rest).evaluated⟩ := by
                simp only [generate_chart_images_loop]
                rw [if_pos hcode, if_pos hplot, hex]
              rw [hred]
              constructor
              · intro p hp
                rcases List.mem_cons.mp hp with rfl | hp
                · exact ⟨Nat.le_refl _, c, by simp, hcode.1, hcode.2, hplot⟩
                · exact plotCellAt_shift ((ih (idx + 1) ⟨[]⟩).1 p hp)
              · intro m hm
                rcases List.mem_cons.mp hm with rfl | hm
                · exact ⟨Nat.le_refl _, c, by simp, hcode.1, hcode.2, hplot⟩
                · exact plotCellAt_shift ((ih (idx + 1) ⟨[]⟩).2 m hm)
          | error s1 =>
              have hred : generate_chart_images_loop execFn render idx s (c :: rest)
                  = ⟨(generate_chart_images_loop execFn render (idx + 1) s1 rest).charts,
                      (generate_chart_images_loop execFn render (idx + 1) s1 rest).state,
                      idx :: (generate_chart_images_loop execFn render
                        (idx + 1) s1 rest).evaluated⟩ := by
                simp only [generate_chart_images_loop]
                rw [if_pos hcode, if_pos hplot, hex]
              rw [hred]
              constructor
              · intro p hp
                exact plotCellAt_shift ((ih (idx + 1) s1).1 p hp)
              · intro m hm
                rcases List.mem_cons.mp hm with rfl | hm
                · exact ⟨Nat.le_refl _, c, by simp, hcode.1, hcode.2, hplot⟩
                · exact plotCellAt_shift ((ih (idx + 1) s1).2 m hm)
        · have hred : generate_chart_images_loop execFn render idx s (c :: rest)
              = generate_chart_images_loop execFn render (idx + 1) s rest := by
            simp only [generate_chart_images_loop]
            rw [if_pos hcode, if_neg hplot]
          rw [hred]
          exact ⟨fun p hp => plotCellAt_shift ((ih (idx + 1) s).1 p hp),
                 fun m hm => plotCellAt_shift ((ih (idx + 1) s).2 m hm)⟩
      · have hred : generate_chart_images_loop execFn render idx s (c :: rest)
            = generate_chart_images_loop execFn render (idx + 1) s rest := by
          simp only [generate_chart_images_loop]
          rw [if_neg hcode]
        rw [hred]
        exact ⟨fun p hp => plotCellAt_shift ((ih (idx + 1) s).1 p hp),
               fun m hm => plotCellAt_shift ((ih (idx + 1) s).2 m hm)⟩

/-- Step equation of the Flask loop for a successfully evaluated plot-like
cell: one image saved for the cell, figure registry cleared for the rest. -/
theorem generate_loop_ok_step {α : Type} (execFn : ExecFn)
    (render : MplState → String) (idx : Nat) (s s1 : MplState) (c : Cell α)
    (rest : List (Cell α)) (hcode : c.cell_type = "code")
    (htr : c.source.truthy = true) (hplot : isPlotLike c.source.joined = true)
    (hok : execFn c.source.joined s = .ok s1) :
    generate_chart_images_loop execFn render idx s (c :: rest)
      = ⟨(idx, [render s1]) ::
            (generate_chart_images_loop execFn render (idx + 1) ⟨[]⟩ rest).charts,
          (generate_chart_images_loop execFn render (idx + 1) ⟨[]⟩ rest).state,
          idx :: (generate_chart_images_loop execFn render
            (idx + 1) ⟨[]⟩ rest).evaluated⟩ := by
  simp only [generate_chart_images_loop]
  rw [if_pos ⟨hcode, htr⟩, if_pos hplot, hok]

/-- Step equation of the Flask loop for a plot-like cell whose evaluation
raises: the exception is absorbed, the cell contributes no chart entry, and
the loop continues on the remaining cells from the state the failed
evaluation left behind. -/
theorem generate_loop_error_step {α : Type} (execFn : ExecFn)
    (render : MplState → String) (idx : Nat) (s s1 : MplState) (c : Cell α)
    (rest : List (Cell α)) (hcode : c.cell_type = "code")
    (htr : c.source.truthy = true) (hplot : isPlotLike c.source.joined = true)
    (herr : execFn c.source.joined s = .error s1) :
    generate_chart_images_loop execFn render idx s (c :: rest)
      = ⟨(generate_chart_images_loop execFn render (idx + 1) s1 rest).charts,
          (generate_chart_images_loop execFn render (idx + 1) s1 rest).state,
          idx :: (generate_chart_images_loop execFn render
            (idx + 1) s1 rest).evaluated⟩ := by
  simp only [generate_chart_images_loop]
  rw [if_pos ⟨hcode, htr⟩, if_pos hplot, herr]

/-! ### Lemmas on the spatial metadata merge -/

theorem getKey_setKey_same {α : Type} (m : List (String × α)) (k : String) (v : α) :
    getKey (setKey m k v) k = some v := by
  induction m with
  | nil => simp [setKey, getKey]
  | cons p t ih =>
      unfold setKey
      by_cases h : p.1 = k
      · rw [if_pos h]; simp [getKey]
      · rw [if_neg h]
        unfold getKey
        rw [if_neg h]
        exact ih

theorem getKey_setKey_other {α : Type} (m : List (String × α)) (k k' : String)
    (v : α) (h : k' ≠ k) : getKey (setKey m k v) k' = getKey m k' := by
  have hkk : ¬k = k' := fun hh => h hh.symm
  induction m with
  | nil => simp [setKey, getKey, hkk]
  | cons p t ih =>
      obtain ⟨pk, pv⟩ := p
      by_cases hp : pk = k
      · subst hp
        simp [setKey, getKey, hkk]
      · by_cases hp' : pk = k'
        · simp [setKey, getKey, hp, hp', hkk, h]
        · simp [setKey, getKey, hp, hp', ih]

theorem updateCellSpatial_fields {α : Type} (payload : α) (c : Cell α) :
    (updateCellSpatial payload c).cell_type = c.cell_type ∧
    (updateCellSpatial payload c).source = c.source ∧
    (updateCellSpatial payload c).outputs = c.outputs ∧
    getKey ((updateCellSpatial payload c).metadata.getD []) "spatial" = some payload ∧
    ∀ k, k ≠ "spatial" →
      getKey ((updateCellSpatial payload c).metadata.getD []) k
        = getKey (c.metadata.getD []) k := by
  refine ⟨rfl, rfl, rfl, ?_, ?_⟩
  · simp [updateCellSpatial, getKey_setKey_same]
  · intro k hk
    simp [updateCellSpatial, getKey_setKey_other _ _ _ _ hk]

theorem modifyAt_length {β : Type} (f : β → β) :
    ∀ (n : Nat) (l : List β), (modifyAt f n l).length = l.length := by
  intro n l
  induction l generalizing n with
  | nil => simp [modifyAt]
  | cons c t ih =>
      cases n with
      | zero => simp [modifyAt]
      | succ m => simp [modifyAt, ih]

theorem modifyAt_get_same {β : Type} (f : β → β) :
    ∀ (n : Nat) (l : List β), (modifyAt f n l)[n]? = (l[n]?).map f := by
  intro n l
  induction l generalizing n with
  | nil => simp [modifyAt]
  | cons c t ih =>
      cases n with
      | zero => simp [modifyAt]
      | succ m => simp [modifyAt, ih]

theorem modifyAt_get_other {β : Type} (f : β → β) :
    ∀ (n j : Nat) (l : List β), j ≠ n → (modifyAt f n l)[j]? = l[j]? := by
  intro n j l
  induction l generalizing n j with
  | nil => intro hj; simp [modifyAt]
  | cons c t ih =>
      intro hj
      cases n with
      | zero =>
          cases j with
          | zero => omega
          | succ j' => simp [modifyAt]
      | succ m =>
          cases j with
          | zero => simp [modifyAt]
          | succ j' =>
              simp only [modifyAt, List.getElem?_cons_succ]
              exact ih m j' (by omega)

/-- The FastAPI cell loop passes every code cell to
`execute_cell_and_capture_plots`, keyword or not. -/
theorem extract_loop_evaluates_all {α : Type} (execFn : ExecFn) (rf : Nat → String) :
    ∀ (cells : List (Cell α)) (idx : Nat) (s : MplState) (n : Nat) (c : Cell α),
      cells[n]? = some c → c.cell_type = "code" →
      idx + n ∈ (extract_charts_loop execFn rf idx s cells).evaluated := by
  intro cells
  induction cells with
  | nil => intro idx s n c h _; simp at h
  | cons c0 rest ih =>
      intro idx s n c h hcode
      cases n with
      | zero =>
          simp only [List.getElem?_cons_zero, Option.some.injEq] at h
          subst h
          rw [Nat.add_zero]
          simp only [extract_charts_loop]
          rw [if_pos hcode]
          split <;> exact List.mem_cons_self _ _
      | succ m =>
          simp only [List.getElem?_cons_succ] at h
          by_cases hc0 : c0.cell_type = "code"
          · have harith : idx + (m + 1) = (idx + 1) + m := by omega
            rw [harith]
            simp only [extract_charts_loop]
            rw [if_pos hc0]
            split <;>
              exact List.mem_cons_of_mem _ (ih (idx + 1) _ m c h hcode)
          · have harith : idx + (m + 1) = (idx + 1) + m := by omega
            rw [harith]
            simp only [extract_charts_loop]
            rw [if_neg hc0]
            exact ih (idx + 1) s m c h hcode

/-! ### Claims -/

/-- Claim C1, as stated, is false on the code: for an output whose data holds
both `image/png` and `image/jpeg`, the later `image/jpeg` branch overwrites
`image_type`, so the recorded image type is `"jpeg"`, not PNG; moreover no
single representation is selected — text, PNG, JPEG, JSON and HTML are all
recorded at once here. -/
theorem spec_c1_counterexample :
    (processOutput 0 0 (Output.displayData c1Rich)).image_type = some "jpeg" ∧
    (processOutput 0 0 (Output.displayData c1Rich)).image_type ≠ some "png" ∧
    (processOutput 0 0 (Output.displayData c1Rich)).image_png = some "PNGDATA" ∧
    (processOutput 0 0 (Output.displayData c1Rich)).image_jpeg = some "JPEGDATA" ∧
    (processOutput 0 0 (Output.displayData c1Rich)).text = some "frame text" ∧
    (processOutput 0 0 (Output.displayData c1Rich)).json_data = some "json payload" ∧
    (processOutput 0 0 (Output.displayData c1Rich)).html = some "<div>x</div>" := by
  refine ⟨rfl, by decide, rfl, rfl, rfl, rfl, rfl⟩

/-- Amended claim C1: for every `display_data` or `execute_result` output the
extractor records every representation present independently (plain text,
PNG, JPEG, JSON, HTML) rather than selecting one by priority, and the
recorded `image_type` is `"jpeg"` whenever image/jpeg is present — also when
image/png is present too — else `"png"` when image/png alone is present. -/
theorem spec_c1_amended (i j : Nat) (d : RichData) :
    processOutput i j (Output.displayData d)
        = { cell_index := i, output_index := j, type := "display_data",
            text := d.textPlain, image_png := d.imagePng,
            image_jpeg := d.imageJpeg,
            image_type :=
              match d.imageJpeg with
              | some _ => some "jpeg"
              | none =>
                match d.imagePng with
                | some _ => some "png"
                | none => none,
            json_data := d.appJson, html := d.textHtml,
            is_dataframe :=
              match d.textHtml with
              | some h => if strIn "dataframe" (strLower h) then true else false
              | none => false,
            stream := none, error := none } ∧
    processOutput i j (Output.executeResult d)
        = { cell_index := i, output_index := j, type := "execute_result",
            text := d.textPlain, image_png := d.imagePng,
            image_jpeg := d.imageJpeg,
            image_type :=
              match d.imageJpeg with
              | some _ => some "jpeg"
              | none =>
                match d.imagePng with
                | some _ => some "png"
                | none => none,
            json_data := d.appJson, html := d.textHtml,
            is_dataframe :=
              match d.textHtml with
              | some h => if strIn "dataframe" (strLower h) then true else false
              | none => false,
            stream := none, error := none } := by
  rcases d with ⟨tp, ip, ij, aj, th⟩
  constructor <;>
    (cases tp <;> cases ip <;> cases ij <;> cases aj <;> cases th <;>
      simp [processOutput, processRich_eq, Output.outputType])

/-- Claim C9: extraction is a pure read — the state-threaded rendering of the
extraction loop returns the extracted records together with the document
unchanged, so re-serializing the cells array after extraction is the
identity. -/
theorem spec_c9_pure_read {α : Type} (cells : List (Cell α)) :
    extract_outputs_st cells = (extract_outputs_from_notebook cells, cells) := by
  rw [extract_outputs_st, extract_outputs_from_notebook]
  suffices h : ∀ idx, extractFromSt idx cells = (extractFrom idx cells, cells) from h 0
  induction cells with
  | nil => intro idx; rfl
  | cons c t ih => intro idx; simp [extractFromSt, extractFrom, ih]

/-- Claim C7: for a cell index at or beyond the cell count, the spatial
update is a silent no-op — the guard `cell_index < len(nb.cells)` rejects the
index, no error is raised and every cell is left unchanged. -/
theorem spec_c7_out_of_range_noop {α : Type} (cells : List (Cell α))
    (payload : α) (i : Int) (h : (cells.length : Int) ≤ i) :
    update_notebook_spatial_metadata cells payload (some i) = .ok cells := by
  rw [update_notebook_spatial_metadata]
  rw [if_neg (by omega)]

/-- Witness for claim C7 at a concrete one-cell notebook and index 3. -/
theorem spec_c7_witness :
    ((([⟨"code", .str "x", none, none⟩] : List (Cell Nat)).length : Int) ≤ 3) ∧
    update_notebook_spatial_metadata
        ([⟨"code", .str "x", none, none⟩] : List (Cell Nat)) 7 (some 3)
      = .ok [⟨"code", .str "x", none, none⟩] :=
  ⟨by decide, spec_c7_out_of_range_noop _ 7 3 (by decide)⟩

/-- Claim C4, as stated, is false on the code: the FastAPI chart capture
(`extract_charts_from_notebook`) has no keyword guard, so a code cell whose
source `x = 1` matches no plotting keyword is still passed to `exec`
(its index appears in the evaluation trace). -/
theorem spec_c4_counterexample :
    isPlotLike plainCell.source.joined = false ∧
    plainCell.cell_type = "code" ∧
    (extract_charts_loop idExec figRender 0 ⟨[]⟩ [plainCell]).evaluated = [0] := by
  refine ⟨by decide, rfl, rfl⟩

/-- Amended claim C4: in the Flask variant
(`generate_chart_images_from_notebook`) a code cell whose source matches no
plotting keyword is never passed to `exec` and contributes no chart entry;
the FastAPI variant (`extract_charts_from_notebook`) instead evaluates every
code cell regardless of keywords. -/
theorem spec_c4_amended {α : Type} (execFn : ExecFn) (render : MplState → String)
    (renderFig : Nat → String) (cells : List (Cell α)) (s0 : MplState)
    (i : Nat) (c : Cell α) (hc : cells[i]? = some c)
    (hcode : c.cell_type = "code")
    (hplot : isPlotLike c.source.joined = false) :
    (i ∉ (generate_chart_images_loop execFn render 0 s0 cells).evaluated) ∧
    (∀ imgs, (i, imgs) ∉ (generate_chart_images_loop execFn render 0 s0 cells).charts) ∧
    (∀ (cells2 : List (Cell α)) (s2 : MplState) (j : Nat) (c2 : Cell α),
       cells2[j]? = some c2 → c2.cell_type = "code" →
       j ∈ (extract_charts_loop execFn renderFig 0 s2 cells2).evaluated) := by
  refine ⟨?_, ?_, ?_⟩
  · intro hmem
    have hspec := (generate_loop_spec execFn render cells 0 s0).2 i hmem
    rcases hspec with ⟨-, c', hc', -, -, hplot'⟩
    rw [Nat.sub_zero, hc] at hc'
    cases hc'
    rw [hplot] at hplot'
    exact absurd hplot' (by simp)
  · intro imgs hmem
    have hspec := (generate_loop_spec execFn render cells 0 s0).1 (i, imgs) hmem
    rcases hspec with ⟨-, c', hc', -, -, hplot'⟩
    rw [Nat.sub_zero, hc] at hc'
    cases hc'
    rw [hplot] at hplot'
    exact absurd hplot' (by simp)
  · intro cells2 s2 j c2 hj hcode2
    have := extract_loop_evaluates_all execFn renderFig cells2 0 s2 j c2 hj hcode2
    simpa using this

/-- Witness for (amended) claim C4, at the one-cell notebook `[plainCell]`
whose source `x = 1` has no plotting keyword. -/
theorem spec_c4_witness :
    isPlotLike plainCell.source.joined = false ∧
    (0 ∉ (generate_chart_images_loop idExec curRender 0 ⟨[]⟩ [plainCell]).evaluated) ∧
    ((0, ["img"]) ∉ (generate_chart_images_loop idExec curRender 0 ⟨[]⟩ [plainCell]).charts) ∧
    0 ∈ (extract_charts_loop idExec figRender 0 ⟨[]⟩ [plainCell]).evaluated :=
  have h := spec_c4_amended idExec curRender figRender [plainCell] ⟨[]⟩ 0 plainCell
    rfl rfl (by decide)
  ⟨by decide, h.1, h.2.1 ["img"], h.2.2 [plainCell] ⟨[]⟩ 0 plainCell rfl rfl⟩

/-- Claim C5, as stated, is false on the code: in the Flask variant a
successfully evaluated plot-like cell always yields exactly one saved image
(the current figure), so when the evaluation leaves two figures open only one
image is recorded, not one per open figure. -/
theorem spec_c5_counterexample :
    twoFigExec plotCell.source.joined ⟨[]⟩ = .ok ⟨[1, 2]⟩ ∧
    (MplState.mk [1, 2]).figs.length = 2 ∧
    (generate_chart_images_loop twoFigExec curRender 0 ⟨[]⟩ [plotCell]).charts
      = [(0, ["cur_2"])] ∧
    ((generate_chart_images_loop twoFigExec curRender 0 ⟨[]⟩
        [plotCell]).charts.map (fun p => p.2.length)) = [1] := by
  refine ⟨rfl, rfl, rfl, rfl⟩

/-- Amended claim C5: in the FastAPI variant
(`execute_cell_and_capture_plots`) a successful evaluation captures every
open figure, one image per figure in ascending figure order, and leaves the
registry empty; in the Flask variant (`generate_chart_images_from_notebook`)
a successfully evaluated plot-like cell stores exactly one image — the
current figure — regardless of how many figures are open, and the registry is
cleared before the next cell. -/
theorem spec_c5_amended (execFn : ExecFn) (renderFig : Nat → String)
    (code : String) (s s1 : MplState)
    (hok : execFn code ⟨[]⟩ = .ok s1) :
    (execute_cell_and_capture_plots execFn renderFig code s
        = ((sortNats s1.figs).map renderFig, ⟨[]⟩)) ∧
    ((execute_cell_and_capture_plots execFn renderFig code s).1.length
        = s1.figs.length) ∧
    (List.Perm (sortNats s1.figs) s1.figs ∧
      (sortNats s1.figs).Pairwise (· ≤ ·)) ∧
    (∀ (α : Type) (render : MplState → String) (idx : Nat) (s2 s3 : MplState)
        (c : Cell α) (rest : List (Cell α)),
       c.cell_type = "code" → c.source.truthy = true →
       isPlotLike c.source.joined = true → execFn c.source.joined s2 = .ok s3 →
       generate_chart_images_loop execFn render idx s2 (c :: rest)
         = ⟨(idx, [render s3]) ::
               (generate_chart_images_loop execFn render (idx + 1) ⟨[]⟩ rest).charts,
             (generate_chart_images_loop execFn render (idx + 1) ⟨[]⟩ rest).state,
             idx :: (generate_chart_images_loop execFn render
               (idx + 1) ⟨[]⟩ rest).evaluated⟩) := by
  refine ⟨?_, ?_, ⟨sortNats_perm _, sortNats_sorted _⟩, ?_⟩
  · simp [execute_cell_and_capture_plots, hok]
  · simp [execute_cell_and_capture_plots, hok, sortNats_length]
  · intro β render idx s2 s3 c rest hcode htr hplot hok2
    exact generate_loop_ok_step execFn render idx s2 s3 c rest hcode htr hplot hok2

/-- Witness for (amended) claim C5: an evaluation that leaves figures 1 and 2
open yields the two images in ascending order and an empty registry, and the
Flask loop stores exactly one image for the same cell. -/
theorem spec_c5_witness :
    twoFigExec "plt.plot(xs)" ⟨[]⟩ = .ok ⟨[1, 2]⟩ ∧
    execute_cell_and_capture_plots twoFigExec figRender "plt.plot(xs)" ⟨[5]⟩
      = ((sortNats (MplState.mk [1, 2]).figs).map figRender, ⟨[]⟩) ∧
    (execute_cell_and_capture_plots twoFigExec figRender
        "plt.plot(xs)" ⟨[5]⟩).1.length = (MplState.mk [1, 2]).figs.length ∧
    generate_chart_images_loop twoFigExec curRender 0 ⟨[5]⟩ [plotCell]
      = ⟨(0, [curRender ⟨[1, 2]⟩]) ::
            (generate_chart_images_loop twoFigExec curRender 1 ⟨[]⟩ ([] : List (Cell Unit))).charts,
          (generate_chart_images_loop twoFigExec curRender 1 ⟨[]⟩ ([] : List (Cell Unit))).state,
          0 :: (generate_chart_images_loop twoFigExec curRender 1 ⟨[]⟩ ([] : List (Cell Unit))).evaluated⟩ :=
  have h := spec_c5_amended twoFigExec figRender "plt.plot(xs)" ⟨[5]⟩ ⟨[1, 2]⟩ rfl
  ⟨rfl, h.1, h.2.1,
    h.2.2.2 Unit curRender 0 ⟨[5]⟩ ⟨[1, 2]⟩ plotCell [] rfl rfl (by decide) rfl⟩

/-- Claim C6: an exception while evaluating a plot-like cell is absorbed at
that cell — it contributes no chart entry, the loop continues over the
remaining cells (their charts are exactly those of the loop on the tail) and
no exception escapes; likewise the FastAPI per-cell capture returns an empty
image list when the evaluation raises. -/
theorem spec_c6_error_isolation {α : Type} (execFn : ExecFn)
    (render : MplState → String) (idx : Nat) (s s1 : MplState) (c : Cell α)
    (rest : List (Cell α)) (hcode : c.cell_type = "code")
    (htr : c.source.truthy = true) (hplot : isPlotLike c.source.joined = true)
    (herr : execFn c.source.joined s = .error s1) :
    ((generate_chart_images_loop execFn render idx s (c :: rest)).charts
        = (generate_chart_images_loop execFn render (idx + 1) s1 rest).charts) ∧
    ((generate_chart_images_loop execFn render idx s (c :: rest)).evaluated
        = idx :: (generate_chart_images_loop execFn render (idx + 1) s1 rest).evaluated) ∧
    (∀ imgs, (idx, imgs) ∉
        (generate_chart_images_loop execFn render idx s (c :: rest)).charts) ∧
    (∀ (renderFig : Nat → String) (code : String) (s2 s3 : MplState),
       execFn code ⟨[]⟩ = .error s3 →
       execute_cell_and_capture_plots execFn renderFig code s2 = ([], s3)) := by
  have hstep := generate_loop_error_step execFn render idx s s1 c rest hcode htr hplot herr
  refine ⟨by rw [hstep], by rw [hstep], ?_, ?_⟩
  · intro imgs hmem
    rw [hstep] at hmem
    have hspec := (generate_loop_spec execFn render rest (idx + 1) s1).1 (idx, imgs) hmem
    have h1 : idx + 1 ≤ idx := hspec.1
    omega
  · intro renderFig code s2 s3 h
    simp [execute_cell_and_capture_plots, h]

/-- Witness for claim C6: a raising evaluation of the plot-like cell yields
no chart entry while the loop still terminates normally. -/
theorem spec_c6_witness :
    failExec plotCell.source.joined ⟨[7]⟩ = .error ⟨[7]⟩ ∧
    (generate_chart_images_loop failExec curRender 0 ⟨[7]⟩ [plotCell]).charts
      = (generate_chart_images_loop failExec curRender 1 ⟨[7]⟩ ([] : List (Cell Unit))).charts ∧
    (generate_chart_images_loop failExec curRender 0 ⟨[7]⟩ [plotCell]).evaluated
      = 0 :: (generate_chart_images_loop failExec curRender 1 ⟨[7]⟩ ([] : List (Cell Unit))).evaluated ∧
    ((0, ["img"]) ∉
      (generate_chart_images_loop failExec curRender 0 ⟨[7]⟩ [plotCell]).charts) ∧
    execute_cell_and_capture_plots failExec figRender "boom" ⟨[9]⟩ = ([], ⟨[]⟩) :=
  have h := spec_c6_error_isolation failExec curRender 0 ⟨[7]⟩ ⟨[7]⟩ plotCell []
    rfl rfl (by decide) rfl
  ⟨rfl, h.1, h.2.1, h.2.2.1 ["img"], h.2.2.2 figRender "boom" ⟨[9]⟩ ⟨[]⟩ rfl⟩

/-- Claim C2: every extracted record comes from an actual output of a code
cell at its recorded indices, the number of distinct cell indices in the
result is at most the number of code cells, and the records are ordered by
cell index with each cell's outputs in their original order. -/
theorem spec_c2_extraction_order {α : Type} (cells : List (Cell α)) :
    (∀ r ∈ extract_outputs_from_notebook cells,
       ∃ c outs o, cells[r.cell_index]? = some c ∧ c.cell_type = "code" ∧
         c.outputs = some outs ∧ outs[r.output_index]? = some o ∧
         r = processOutput r.cell_index r.output_index o) ∧
    ((extract_outputs_from_notebook cells).map
        (fun r => r.cell_index)).dedup.length
      ≤ cells.countP (fun c => c.cell_type == "code") ∧
    (extract_outputs_from_notebook cells).Pairwise recLex := by
  refine ⟨?_, ?_, pairwise_extractFrom⟩
  · intro r hr
    rcases mem_extractFrom.mp hr with ⟨n, c, outs, k, o, hn, hcode, houts, hk, rfl⟩
    refine ⟨c, outs, o, ?_, hcode, houts, ?_, ?_⟩
    · rw [processOutput_cell_index]
      simpa using hn
    · rw [processOutput_output_index]
      exact hk
    · rw [processOutput_cell_index, processOutput_output_index]
  · have hsub : ((extract_outputs_from_notebook cells).map
        (fun r => r.cell_index)).dedup ⊆ codeIndices 0 cells := by
      intro a ha
      have ha' := List.dedup_subset _ ha
      rcases List.mem_map.mp ha' with ⟨r, hr, rfl⟩
      rcases mem_extractFrom.mp hr with ⟨n, c, outs, k, o, hn, hcode, houts, hk, rfl⟩
      rw [processOutput_cell_index]
      exact mem_codeIndices_of_getElem hn hcode
    calc ((extract_outputs_from_notebook cells).map
            (fun r => r.cell_index)).dedup.length
        ≤ (codeIndices 0 cells).length :=
          ((List.nodup_dedup _).subperm hsub).length_le
      _ = cells.countP (fun c => c.cell_type == "code") := codeIndices_length

/-- Witness for claim C2, instantiated at the concrete sample notebook and
its first extracted record. -/
theorem spec_c2_witness :
    (∃ c outs o, sampleCells[1]? = some c ∧ c.cell_type = "code" ∧
       c.outputs = some outs ∧ outs[0]? = some o ∧
       processOutput 1 0 (Output.stream "stdout" "one") = processOutput 1 0 o) ∧
    ((extract_outputs_from_notebook sampleCells).map
        (fun r => r.cell_index)).dedup.length
      ≤ sampleCells.countP (fun c => c.cell_type == "code") ∧
    (extract_outputs_from_notebook sampleCells).Pairwise recLex := by
  have h := spec_c2_extraction_order sampleCells
  refine ⟨?_, h.2.1, h.2.2⟩
  have h1 := h.1 (processOutput 1 0 (Output.stream "stdout" "one")) (by decide)
  simp only [processOutput_cell_index, processOutput_output_index] at h1
  exact h1

/-- Claim C3: an `error` output yields exactly one record at its (cell,
output) position, carrying the exception name, message and traceback
verbatim. -/
theorem spec_c3_error_record {α : Type} (cells : List (Cell α)) (i j : Nat)
    (c : Cell α) (outs : List Output) (en ev : String) (tb : List String)
    (hc : cells[i]? = some c) (hcode : c.cell_type = "code")
    (houts : c.outputs = some outs)
    (ho : outs[j]? = some (.error en ev tb)) :
    (extract_outputs_from_notebook cells).filter
        (fun r => r.cell_index == i && r.output_index == j)
      = [{ cell_index := i, output_index := j, type := "error",
           error := some (en, ev, tb) }] := by
  have hx : processOutput i j (Output.error en ev tb)
      ∈ extract_outputs_from_notebook cells := by
    rw [extract_outputs_from_notebook]
    exact mem_extractFrom.mpr
      ⟨i, c, outs, j, Output.error en ev tb, hc, hcode, houts, ho,
        by rw [Nat.zero_add]⟩
  have hkey := filter_key_of_pairwise (@pairwise_extractFrom α cells 0) hx
  simp only [processOutput_cell_index, processOutput_output_index] at hkey
  exact hkey

/-- Witness for claim C3 at the sample notebook's error output (cell 2,
output 1). -/
theorem spec_c3_witness :
    sampleCells[2]?.isSome = true ∧
    (extract_outputs_from_notebook sampleCells).filter
        (fun r => r.cell_index == 2 && r.output_index == 1)
      = [{ cell_index := 2, output_index := 1, type := "error",
           error := some ("ValueError", "bad", ["l1", "l2"]) }] :=
  ⟨rfl, spec_c3_error_record sampleCells 2 1 sampleCells[2]
    [Output.executeResult ⟨some "df", none, none, none,
        some "<div class=dataframe></div>"⟩,
      Output.error "ValueError" "bad" ["l1", "l2"]]
    "ValueError" "bad" ["l1", "l2"] rfl rfl rfl rfl⟩

/-- Claim C8: for an in-range cell index the spatial update rewrites exactly
that cell, attaching the payload verbatim under the `'spatial'` metadata key
while preserving the cell's type, source, outputs and other metadata keys,
and leaves every other cell untouched; with no index, every cell receives
the same update. -/
theorem spec_c8_spatial_update {α : Type} (cells : List (Cell α)) (payload : α)
    (i : Nat) (hi : i < cells.length) :
    (update_notebook_spatial_metadata cells payload (some (i : Int))
        = .ok (modifyAt (updateCellSpatial payload) i cells)) ∧
    ((modifyAt (updateCellSpatial payload) i cells)[i]?
        = (cells[i]?).map (updateCellSpatial payload)) ∧
    (∀ j, j ≠ i → (modifyAt (updateCellSpatial payload) i cells)[j]? = cells[j]?) ∧
    (∀ c : Cell α,
       (updateCellSpatial payload c).cell_type = c.cell_type ∧
       (updateCellSpatial payload c).source = c.source ∧
       (updateCellSpatial payload c).outputs = c.outputs ∧
       getKey ((updateCellSpatial payload c).metadata.getD []) "spatial"
         = some payload ∧
       ∀ k, k ≠ "spatial" →
         getKey ((updateCellSpatial payload c).metadata.getD []) k
           = getKey (c.metadata.getD []) k) ∧
    (update_notebook_spatial_metadata cells payload none
        = .ok (cells.map (updateCellSpatial payload))) := by
  refine ⟨?_, modifyAt_get_same _ _ _, fun j hj => modifyAt_get_other _ _ _ _ hj,
    fun c => updateCellSpatial_fields payload c, rfl⟩
  have h1 : (i : Int) < (cells.length : Int) := by exact_mod_cast hi
  have h2 : (0 : Int) ≤ (i : Int) := Int.natCast_nonneg i
  rw [update_notebook_spatial_metadata]
  rw [if_pos h1]
  simp only [h2, if_true, if_pos]
  rw [Int.toNat_natCast]

/-- Witness for claim C8 at a three-cell notebook and index 1. -/
theorem spec_c8_witness :
    1 < sampleCells.length ∧
    update_notebook_spatial_metadata sampleCells 9 (some (1 : Int))
      = .ok (modifyAt (updateCellSpatial 9) 1 sampleCells) ∧
    (modifyAt (updateCellSpatial 9) 1 sampleCells)[0]? = sampleCells[0]? ∧
    getKey ((updateCellSpatial 9 sampleCells[2]).metadata.getD []) "spatial"
      = some 9 ∧
    update_notebook_spatial_metadata sampleCells 9 none
      = .ok (sampleCells.map (updateCellSpatial 9)) :=
  have h := spec_c8_spatial_update sampleCells 9 1 (by decide)
  ⟨by decide, h.1, h.2.2.1 0 (by decide), (h.2.2.2.1 sampleCells[2]).2.2.2.1,
    h.2.2.2.2⟩

/-- Claim C10: a negative cell index `i` with `-n ≤ i < 0` passes the guard
`cell_index < len(nb.cells)` and Python list indexing resolves it to cell
`n + i`, which receives the payload under the `'spatial'` key while all other
cells are untouched; in particular index `-1` updates the last cell. -/
theorem spec_c10_negative_index {α : Type} (cells : List (Cell α)) (payload : α)
    (i : Int) (hlo : -(cells.length : Int) ≤ i) (hhi : i < 0) :
    (update_notebook_spatial_metadata cells payload (some i)
        = .ok (modifyAt (updateCellSpatial payload)
            ((cells.length : Int) + i).toNat cells)) ∧
    (∀ c : Cell α, cells[((cells.length : Int) + i).toNat]? = some c →
       (modifyAt (updateCellSpatial payload)
           ((cells.length : Int) + i).toNat cells)[((cells.length : Int) + i).toNat]?
           = some (updateCellSpatial payload c) ∧
       getKey ((updateCellSpatial payload c).metadata.getD []) "spatial"
         = some payload) ∧
    (∀ j, j ≠ ((cells.length : Int) + i).toNat →
       (modifyAt (updateCellSpatial payload)
           ((cells.length : Int) + i).toNat cells)[j]? = cells[j]?) ∧
    (i = -1 → ((cells.length : Int) + i).toNat = cells.length - 1) := by
  refine ⟨?_, ?_, fun j hj => modifyAt_get_other _ _ _ _ hj, ?_⟩
  · have h1 : i < (cells.length : Int) := by omega
    have h2 : ¬(0 : Int) ≤ i := by omega
    have h3 : (0 : Int) ≤ (cells.length : Int) + i := by omega
    rw [update_notebook_spatial_metadata]
    rw [if_pos h1]
    simp only [h2, if_false, h3, if_true, if_neg, if_pos]
  · intro c hc
    constructor
    · rw [modifyAt_get_same, hc]
      simp
    · exact (updateCellSpatial_fields payload c).2.2.2.1
  · intro hi1
    subst hi1
    omega

/-- Witness for claim C10 at a two-cell notebook and index `-1`: the last
cell is the one updated. -/
theorem spec_c10_witness :
    (-(([plainCell, plotCell] : List (Cell Unit)).length : Int) ≤ -1) ∧
    update_notebook_spatial_metadata ([plainCell, plotCell] : List (Cell Unit))
        () (some (-1))
      = .ok (modifyAt (updateCellSpatial ())
          ((([plainCell, plotCell] : List (Cell Unit)).length : Int) + -1).toNat
          [plainCell, plotCell]) ∧
    ((([plainCell, plotCell] : List (Cell Unit)).length : Int) + -1).toNat
      = ([plainCell, plotCell] : List (Cell Unit)).length - 1 :=
  have h := spec_c10_negative_index ([plainCell, plotCell] : List (Cell Unit))
    () (-1) (by decide) (by decide)
  ⟨by decide, h.1, h.2.2.2 rfl⟩

end Pulto
